import Mathlib

/-! Verification of the restic FUSE directory layer (`src/restic/fuse/dir.go`).

The Go file implements lazy directory materialization over an immutable,
content-addressed snapshot store: building a directory from a subtree
reference (`newDir`) or from a snapshot (`newDirFromSnapshot`, which applies
special-node flattening `replaceSpecialNodes`), attribute projection
(`dir.Attr`, `dir.calcNumberOfLinks`), listing (`dir.ReadDirAll`), child
resolution (`dir.Lookup`) and extended attributes (`dir.Getxattr`).

Embedding choices:
- `restic.Node` becomes the structure `Node`; its `Type` field stays a
  string, as in the source.  Subtree references (`*backend.ID`) become
  `Option Nat`; dereferencing a `nil` subtree pointer (a Go runtime panic)
  is modelled as the distinguished error `FuseError.nilDeref`.
- The backing store `repo.LoadTree` becomes a function
  `Repo = Nat → Except RepoError (List Node)`; its errors are propagated
  unchanged, wrapped as `FuseError.backing`.
- The Go map `map[string]*restic.Node` becomes a key-unique association
  list; `items[k] = v` becomes `mapSet` (replace the existing entry for the
  key, else append).  Go map iteration order is unspecified, so no theorem
  below depends on the order of `items`.
- Machine integers become `Nat`; the only counter that can overflow in the
  source (`calcNumberOfLinks`'s `uint32`) wraps explicitly at `2 ^ 32`.
-/

namespace ResticFuse

/-- Errors of the backing store's `LoadTree` (external interface: fails with
NotFound or IOError). -/
inductive RepoError where
  | notFound
  | ioError
  deriving DecidableEq, Repr

/-- Errors surfaced by the FUSE layer: `fuse.ENOENT`, `fuse.ErrNoXattr`, a
backing-store load failure propagated unchanged, and a Go nil-pointer
dereference (runtime panic), kept distinct from all returned errors. -/
inductive FuseError where
  | enoent
  | noXattr
  | backing (e : RepoError)
  | nilDeref
  deriving DecidableEq, Repr

/-- `restic.Node`: the per-entry descriptor, with the fields `dir.go` reads.
`type_` is the Go `Type` string ("dir", "file", "symlink", or anything else);
`subtree` is the `*backend.ID` pointer (a content-address, modelled as `Nat`);
timestamps are abstract instants modelled as `Nat`; extended attributes are an
ordered list of (name, value bytes). -/
structure Node where
  name : String
  type_ : String
  subtree : Option Nat
  inode : Nat
  mode : Nat
  uid : Nat
  gid : Nat
  accessTime : Nat
  modTime : Nat
  changeTime : Nat
  extendedAttributes : List (String × List Nat)
  deriving DecidableEq, Repr

/-- The backing store: `LoadTree` resolves a subtree reference to the ordered
list of child descriptors (`tree.Nodes`), or fails. -/
def Repo : Type := Nat → Except RepoError (List Node)

/-- `repo.LoadTree(ctx, ref)` as used in `dir.go`: the repository's error is
surfaced verbatim (wrapped into the caller's error type, no retry). -/
def loadTree (repo : Repo) (ref : Nat) : Except FuseError (List Node) :=
  match repo ref with
  | Except.ok nodes => Except.ok nodes
  | Except.error e => Except.error (FuseError.backing e)

/-- The Go map assignment `items[k] = v` on the association-list model:
replace the entry carrying key `k` if present, otherwise append. -/
def mapSet : List (String × Node) → String → Node → List (String × Node)
  | [], k, v => [(k, v)]
  | (k', v') :: rest, k, v =>
    if k' = k then (k, v) :: rest else (k', v') :: mapSet rest k v

/-- The Go map read `items[k]` on the association-list model. -/
def mapLookup : List (String × Node) → String → Option Node
  | [], _ => none
  | (k', v') :: rest, k => if k' = k then some v' else mapLookup rest k

/-- The indexing loop shared by both factories:
`for _, node := range nodes { items[node.Name] = node }` starting from an
empty map. -/
def buildItems (nodes : List Node) : List (String × Node) :=
  nodes.foldl (fun m n => mapSet m n.name n) []

/-- `BlobSizeCache`: opaque pass-through handle (defined in a sibling file,
only threaded through `dir.go`, never inspected by it). -/
structure BlobSizeCache where
  deriving DecidableEq, Repr

/-- The `dir` struct of `dir.go`: the repository handle, the loaded child map,
the assigned inode, the directory's own descriptor and the owner-masking
flag. -/
structure Dir where
  repo : Repo
  items : List (String × Node)
  inode : Nat
  node : Node
  ownerIsRoot : Bool
  blobsize : BlobSizeCache

/-- `newDir`: load the subtree via the backing store (the `*node.Subtree`
dereference panics on a nil pointer, modelled as `nilDeref`), index every
returned descriptor by name, and build the `dir` with the descriptor's own
numeric inode. -/
def newDir (repo : Repo) (node : Node) (ownerIsRoot : Bool)
    (blobsize : BlobSizeCache) : Except FuseError Dir :=
  match node.subtree with
  | none => Except.error FuseError.nilDeref
  | some ref =>
    match loadTree repo ref with
    | Except.error e => Except.error e
    | Except.ok nodes =>
      Except.ok { repo := repo, node := node, items := buildItems nodes,
                  inode := node.inode, ownerIsRoot := ownerIsRoot,
                  blobsize := blobsize }

/-- `replaceSpecialNodes`: a descriptor that is not a directory, or has no
subtree, passes through as a one-element list; so does a directory whose name
is neither "." nor "/".  Otherwise the full listing of its own subtree is
returned verbatim (one level of substitution; the returned descriptors are
not processed further by this call). -/
def replaceSpecialNodes (repo : Repo) (node : Node) :
    Except FuseError (List Node) :=
  if node.type_ ≠ "dir" ∨ node.subtree = none then
    Except.ok [node]
  else if node.name ≠ "." ∧ node.name ≠ "/" then
    Except.ok [node]
  else
    match node.subtree with
    | some ref => loadTree repo ref
    | none => Except.ok [node]

/-- The indexing loop of `newDirFromSnapshot`: for each top-level descriptor,
apply `replaceSpecialNodes` (propagating its error), then index every
resulting descriptor by name into the accumulated map. -/
def snapshotItems (repo : Repo) :
    List Node → List (String × Node) → Except FuseError (List (String × Node))
  | [], m => Except.ok m
  | n :: rest, m =>
    match replaceSpecialNodes repo n with
    | Except.error e => Except.error e
    | Except.ok nodes =>
      snapshotItems repo rest (nodes.foldl (fun m node => mapSet m node.name node) m)

/-- `SnapshotWithId` as consumed by `dir.go`: the snapshot's backend ID, its
root tree reference (`*snapshot.Tree`, assumed present as in every call
site), and its creation time. -/
structure SnapshotWithId where
  id : Nat
  tree : Nat
  time : Nat
  deriving DecidableEq, Repr

/-- Modelled from the spec: Inode Assignment (`inodeFromBackendID`, defined
in a sibling file not under src) maps a content-address hash to a
deterministic, process-stable uint64. -/
def inodeFromBackendID (id : Nat) : Nat := id % 2 ^ 64

/-- Modelled from the spec: the effective uid of the current process
(`os.Getuid`), used only for synthetic snapshot-root attribution; an
arbitrary fixed value within one run. -/
def osGetuid : Nat := 1000

/-- Modelled from the spec: the effective gid of the current process
(`os.Getgid`). -/
def osGetgid : Nat := 1000

/-- `os.ModeDir`: bit 31 of the Go `FileMode` bitmask. -/
def osModeDir : Nat := 2 ^ 31

/-- `newDirFromSnapshot`: load the snapshot's root tree, flatten special
nodes while indexing, and synthesize the root's own descriptor (process
uid/gid, all timestamps equal to the snapshot time, mode `ModeDir | 0555`,
every other field at its Go zero value); the inode derives from the
snapshot's backend ID. -/
def newDirFromSnapshot (repo : Repo) (snapshot : SnapshotWithId)
    (ownerIsRoot : Bool) (blobsize : BlobSizeCache) : Except FuseError Dir :=
  match loadTree repo snapshot.tree with
  | Except.error e => Except.error e
  | Except.ok tree =>
    match snapshotItems repo tree [] with
    | Except.error e => Except.error e
    | Except.ok items =>
      Except.ok
        { repo := repo,
          node := { name := "", type_ := "", subtree := none, inode := 0,
                    mode := Nat.lor osModeDir 0o555,
                    uid := osGetuid, gid := osGetgid,
                    accessTime := snapshot.time, modTime := snapshot.time,
                    changeTime := snapshot.time, extendedAttributes := [] },
          items := items, inode := inodeFromBackendID snapshot.id,
          ownerIsRoot := ownerIsRoot, blobsize := blobsize }

/-- `fuse.Attr` with the fields `dir.Attr` writes.  `dir.Attr` receives the
attribute record from the caller and fills fields in; uid/gid are left at the
caller's defaults when `ownerIsRoot` holds. -/
structure FuseAttr where
  inode : Nat
  mode : Nat
  uid : Nat
  gid : Nat
  atime : Nat
  ctime : Nat
  mtime : Nat
  nlink : Nat
  deriving DecidableEq, Repr

/-- `dir.calcNumberOfLinks`: a `uint32` counter starting at 2, incremented
(with uint32 wrap-around) once per child whose type is "dir". -/
def calcNumberOfLinks (d : Dir) : Nat :=
  d.items.foldl
    (fun count p => if p.2.type_ = "dir" then (count + 1) % 2 ^ 32 else count) 2

/-- `dir.Attr`: fill the caller's attribute record with the assigned inode,
`os.ModeDir | node.Mode`, uid/gid from the descriptor unless `ownerIsRoot`,
the descriptor's three timestamps, and the computed link count. -/
def dirAttr (d : Dir) (a : FuseAttr) : FuseAttr :=
  let a1 := { a with inode := d.inode, mode := Nat.lor osModeDir d.node.mode }
  let a2 := if d.ownerIsRoot then a1
            else { a1 with uid := d.node.uid, gid := d.node.gid }
  { a2 with atime := d.node.accessTime, ctime := d.node.changeTime,
            mtime := d.node.modTime, nlink := calcNumberOfLinks d }

/-- `fuse.DirentType` (external bazil fuse library): the eight dirent type
constants; `dtUnknown` is the Go zero value, which the switch of
`dir.ReadDirAll` leaves in place when no case matches. -/
inductive DirentType where
  | dtUnknown
  | dtFIFO
  | dtChar
  | dtDir
  | dtBlock
  | dtFile
  | dtLink
  | dtSocket
  deriving DecidableEq, Repr

/-- The switch of `dir.ReadDirAll`: `var typ fuse.DirentType` starts at the
zero value `DT_Unknown` and is overwritten only by a matching case. -/
def direntTypeOf (t : String) : DirentType :=
  if t = "dir" then DirentType.dtDir
  else if t = "file" then DirentType.dtFile
  else if t = "symlink" then DirentType.dtLink
  else DirentType.dtUnknown

/-- `fuse.Dirent`: one listing entry. -/
structure Dirent where
  inode : Nat
  typ : DirentType
  name : String
  deriving DecidableEq, Repr

/-- `dir.ReadDirAll`: one entry per element of the child map, carrying the
child's numeric inode, its switch-translated type, and its name. -/
def readDirAll (d : Dir) : List Dirent :=
  d.items.map (fun p =>
    { inode := p.2.inode, typ := direntTypeOf p.2.type_, name := p.2.name })

/-- A typed child handle produced by `dir.Lookup`. -/
inductive FsNode where
  | dirNode (d : Dir)
  | fileNode (n : Node)
  | linkNode (n : Node)

/-- Modelled from the spec: the file-node constructor (`newFile`, defined in
the sibling file `file.go`, not under src) is an external collaborator that
`Lookup` delegates the descriptor to; modelled as constructing a handle from
the descriptor. -/
def newFile (repo : Repo) (node : Node) (ownerIsRoot : Bool)
    (blobsize : BlobSizeCache) : Except FuseError FsNode :=
  Except.ok (FsNode.fileNode node)

/-- Modelled from the spec: the symlink-node constructor (`newLink`, defined
in the sibling file `link.go`, not under src), an external collaborator
receiving the descriptor. -/
def newLink (repo : Repo) (node : Node) (ownerIsRoot : Bool) :
    Except FuseError FsNode :=
  Except.ok (FsNode.linkNode node)

/-- `dir.Lookup`: `fuse.ENOENT` when the name is absent; dispatch on the
child's type ("dir" re-invokes `newDir` on the child, "file"/"symlink"
delegate to the sibling constructors); any other type falls to the default
case and yields `fuse.ENOENT`. -/
def lookup (d : Dir) (name : String) : Except FuseError FsNode :=
  match mapLookup d.items name with
  | none => Except.error FuseError.enoent
  | some node =>
    if node.type_ = "dir" then
      (newDir d.repo node d.ownerIsRoot d.blobsize).map FsNode.dirNode
    else if node.type_ = "file" then
      newFile d.repo node d.ownerIsRoot d.blobsize
    else if node.type_ = "symlink" then
      newLink d.repo node d.ownerIsRoot
    else
      Except.error FuseError.enoent

/-- Modelled from the spec: `restic.Node.GetExtendedAttribute` (defined in
the restic package, not under src) linear-scans the descriptor's extended
attributes for an exactly matching name — no case-folding, no
normalization — and returns its bytes, or signals absence. -/
def getExtendedAttribute (n : Node) (name : String) : Option (List Nat) :=
  (n.extendedAttributes.find? (fun a => a.1 = name)).map (fun a => a.2)

/-- `dir.Getxattr`: return the descriptor's attribute value when present,
`fuse.ErrNoXattr` otherwise. -/
def getxattr (d : Dir) (name : String) : Except FuseError (List Nat) :=
  match getExtendedAttribute d.node name with
  | some v => Except.ok v
  | none => Except.error FuseError.noXattr

/-! Concrete fixtures used by witnesses and counterexamples. -/

/-- A regular-file descriptor with one extended attribute. -/
def sampleFile : Node :=
  { name := "a.txt", type_ := "file", subtree := none, inode := 10,
    mode := 0o644, uid := 7, gid := 8, accessTime := 5, modTime := 6,
    changeTime := 7, extendedAttributes := [("user.Key", [1, 2, 3])] }

/-- A subdirectory descriptor pointing at subtree 2. -/
def sampleSub : Node :=
  { name := "sub", type_ := "dir", subtree := some 2, inode := 11,
    mode := 0o755, uid := 7, gid := 8, accessTime := 5, modTime := 6,
    changeTime := 7, extendedAttributes := [] }

/-- A synthetic root marker: a directory named "." pointing at subtree 2. -/
def sampleDot : Node :=
  { name := ".", type_ := "dir", subtree := some 2, inode := 12,
    mode := 0o755, uid := 7, gid := 8, accessTime := 5, modTime := 6,
    changeTime := 7, extendedAttributes := [] }

/-- A directory named "." with an absent subtree reference. -/
def bareDot : Node :=
  { name := ".", type_ := "dir", subtree := none, inode := 15,
    mode := 0o755, uid := 7, gid := 8, accessTime := 5, modTime := 6,
    changeTime := 7, extendedAttributes := [] }

/-- A descriptor whose type string is none of "dir"/"file"/"symlink". -/
def fifoNode : Node :=
  { name := "p", type_ := "fifo", subtree := none, inode := 3,
    mode := 0o644, uid := 7, gid := 8, accessTime := 5, modTime := 6,
    changeTime := 7, extendedAttributes := [] }

/-- A directory descriptor pointing at subtree 1 (whose listing contains a
"." marker), used to show `newDir` applies no flattening. -/
def wrapDirNode : Node :=
  { name := "w", type_ := "dir", subtree := some 1, inode := 14,
    mode := 0o755, uid := 7, gid := 8, accessTime := 5, modTime := 6,
    changeTime := 7, extendedAttributes := [] }

/-- A directory descriptor whose mode carries a non-permission bit
(`os.ModeSetuid`, bit 23) alongside permission bits 0755. -/
def modeNode : Node :=
  { name := "d", type_ := "dir", subtree := some 2, inode := 13,
    mode := 2 ^ 23 + 0o755, uid := 7, gid := 8, accessTime := 1, modTime := 2,
    changeTime := 3, extendedAttributes := [] }

/-- A backing store: ref 1 lists the "." marker, ref 2 lists a file and a
subdirectory, everything else is NotFound. -/
def sampleRepo : Repo := fun ref =>
  if ref = 1 then Except.ok [sampleDot]
  else if ref = 2 then Except.ok [sampleFile, sampleSub]
  else Except.error RepoError.notFound

/-- A second backing store agreeing with `sampleRepo` on ref 2 only. -/
def sampleRepo2 : Repo := fun ref =>
  if ref = 2 then Except.ok [sampleFile, sampleSub]
  else Except.error RepoError.ioError

/-- A loaded directory whose children are subtree 2's listing. -/
def sampleParent : Dir :=
  { repo := sampleRepo, items := buildItems [sampleFile, sampleSub],
    inode := 1, node := sampleSub, ownerIsRoot := false, blobsize := ⟨⟩ }

/-- A directory whose own descriptor is `sampleFile` (carrying an extended
attribute). -/
def xattrDir : Dir :=
  { repo := sampleRepo, items := [], inode := 10, node := sampleFile,
    ownerIsRoot := false, blobsize := ⟨⟩ }

/-- A directory with one child of unrecognized type. -/
def fifoDir : Dir :=
  { repo := sampleRepo, items := [("p", fifoNode)], inode := 5,
    node := fifoNode, ownerIsRoot := false, blobsize := ⟨⟩ }

/-- A directory whose own descriptor carries a non-permission mode bit. -/
def modeDir : Dir :=
  { repo := sampleRepo, items := [], inode := 13, node := modeNode,
    ownerIsRoot := false, blobsize := ⟨⟩ }

/-- The all-zero attribute record handed in by the caller. -/
def attrZero : FuseAttr :=
  { inode := 0, mode := 0, uid := 0, gid := 0, atime := 0, ctime := 0,
    mtime := 0, nlink := 0 }

/-- The directory `Lookup "sub"` builds from `sampleParent` over
`sampleRepo`. -/
def lookupDir1 : Dir :=
  { repo := sampleRepo, node := sampleSub,
    items := buildItems [sampleFile, sampleSub], inode := sampleSub.inode,
    ownerIsRoot := false, blobsize := ⟨⟩ }

/-- The directory `Lookup "sub"` builds from `sampleParent` over
`sampleRepo2`. -/
def lookupDir2 : Dir := { lookupDir1 with repo := sampleRepo2 }

/-! Lemmas about the Go-map model. -/

/-- Reading a key after a map assignment: the assigned value for the written
key, the previous content for every other key. -/
theorem mapLookup_mapSet (m : List (String × Node)) (k k' : String) (v : Node) :
    mapLookup (mapSet m k v) k' = if k = k' then some v else mapLookup m k' := by
  induction m with
  | nil =>
    by_cases hkk : k = k' <;> simp [mapSet, mapLookup, hkk]
  | cons p rest ih =>
    obtain ⟨pk, pv⟩ := p
    by_cases hpk : pk = k
    · by_cases hkk : k = k'
      · simp [mapSet, mapLookup, hpk, hkk]
      · have hpk' : ¬ pk = k' := by rw [hpk]; exact hkk
        simp [mapSet, mapLookup, hpk, hkk, hpk']
    · by_cases hpk' : pk = k'
      · have hkk : ¬ k = k' := by
          rw [← hpk']
          exact fun h => hpk h.symm
        have hkk2 : ¬ k' = k := fun h => hpk (hpk'.trans h)
        simp [mapSet, mapLookup, hpk, hpk', hkk, hkk2]
      · simp [mapSet, mapLookup, hpk, hpk', ih]

/-- The indexing loop `for _, node := range ns { items[node.Name] = node }`
run on top of an existing map `m`: a key resolves to the LAST descriptor of
`ns` carrying that name (first of the reversed listing), falling back to the
previous content of `m`. -/
theorem mapLookup_foldl_mapSet (ns : List Node) (m : List (String × Node))
    (k : String) :
    mapLookup (ns.foldl (fun m n => mapSet m n.name n) m) k =
      (ns.reverse.find? (fun x => x.name = k)).or (mapLookup m k) := by
  induction ns generalizing m with
  | nil => simp
  | cons n rest ih =>
    simp only [List.foldl_cons, List.reverse_cons, List.find?_append]
    rw [ih, mapLookup_mapSet, Option.or_assoc]
    by_cases hk : n.name = k
    · simp [List.find?, hk]
    · have hk' : ¬ k = n.name := fun h => hk h.symm
      simp [List.find?, hk, hk']

/-- Last write wins on `buildItems`. -/
theorem mapLookup_buildItems (ns : List Node) (k : String) :
    mapLookup (buildItems ns) k = ns.reverse.find? (fun x => x.name = k) := by
  rw [buildItems, mapLookup_foldl_mapSet]
  simp [mapLookup, Option.or_none]

/-- The keys of `buildItems ns` are exactly the names occurring in `ns`. -/
theorem mapLookup_buildItems_isSome (ns : List Node) (k : String) :
    (mapLookup (buildItems ns) k).isSome ↔ k ∈ ns.map Node.name := by
  rw [mapLookup_buildItems]
  simp only [List.find?_isSome, List.mem_reverse, List.mem_map,
    decide_eq_true_eq]

/-! Claim theorems. -/

/-- C10: a descriptor that is not a directory, or whose subtree reference is
absent — including one named "." or "/" with an absent reference — passes
through `replaceSpecialNodes` unchanged as a one-element list for EVERY
backing store (so the absent reference is never dereferenced), and the
snapshot-root indexing loop simply indexes it and moves on, so snapshot-root
construction cannot fail on such a descriptor. -/
theorem C10_replaceSpecialNodes_safe (node : Node)
    (h : node.type_ ≠ "dir" ∨ node.subtree = none) :
    ∀ repo : Repo,
      replaceSpecialNodes repo node = Except.ok [node] ∧
      ∀ rest m, snapshotItems repo (node :: rest) m =
        snapshotItems repo rest (mapSet m node.name node) := by
  intro repo
  have hpass : replaceSpecialNodes repo node = Except.ok [node] := by
    unfold replaceSpecialNodes
    rw [if_pos]
    rcases h with h | h
    · exact Or.inl h
    · exact Or.inr h
  refine ⟨hpass, ?_⟩
  intro rest m
  conv_lhs => rw [snapshotItems, hpass]
  simp only [List.foldl_cons, List.foldl_nil]

/-- Witness for C10: the "." directory with an absent subtree reference is
passed through unchanged over a concrete store. -/
theorem C10_witness :
    replaceSpecialNodes sampleRepo bareDot = Except.ok [bareDot] ∧
    snapshotItems sampleRepo [bareDot] [] =
      snapshotItems sampleRepo [] (mapSet [] bareDot.name bareDot) := by
  have h := C10_replaceSpecialNodes_safe bareDot (Or.inr rfl) sampleRepo
  exact ⟨h.1, h.2 [] []⟩

/-- C2: under the data-model invariant (a "dir" descriptor carries a subtree
reference), `replaceSpecialNodes` returns the full listing of the node's own
subtree — verbatim, the result of a single `LoadTree`, with no further
substitution applied to it — exactly when the node is a directory named
exactly "." or "/"; in every other case it returns the one-element list
containing the unchanged input descriptor. -/
theorem C2_replaceSpecialNodes_spec (repo : Repo) (node : Node)
    (hinv : node.type_ = "dir" → node.subtree.isSome) :
    (node.type_ = "dir" ∧ (node.name = "." ∨ node.name = "/") →
      ∃ ref, node.subtree = some ref ∧
        replaceSpecialNodes repo node = loadTree repo ref) ∧
    (¬(node.type_ = "dir" ∧ (node.name = "." ∨ node.name = "/")) →
      replaceSpecialNodes repo node = Except.ok [node]) := by
  constructor
  · rintro ⟨hdir, hname⟩
    obtain ⟨ref, href⟩ := Option.isSome_iff_exists.mp (hinv hdir)
    refine ⟨ref, href, ?_⟩
    rcases hname with h | h <;> simp [replaceSpecialNodes, hdir, href, h]
  · intro hnot
    by_cases hdir : node.type_ = "dir"
    · have hname : node.name ≠ "." ∧ node.name ≠ "/" := by
        constructor
        · exact fun h => hnot ⟨hdir, Or.inl h⟩
        · exact fun h => hnot ⟨hdir, Or.inr h⟩
      cases hsub : node.subtree with
      | none => simp [replaceSpecialNodes, hsub]
      | some ref =>
        simp [replaceSpecialNodes, hdir, hsub, hname.1, hname.2]
    · simp [replaceSpecialNodes, hdir]

/-- Witness for C2: the "." directory descriptor is replaced by the listing
of its own subtree (one `LoadTree`, verbatim), on a concrete store. -/
theorem C2_witness :
    ∃ ref, sampleDot.subtree = some ref ∧
      replaceSpecialNodes sampleRepo sampleDot = loadTree sampleRepo ref :=
  (C2_replaceSpecialNodes_spec sampleRepo sampleDot (fun _ => rfl)).1
    ⟨rfl, Or.inl rfl⟩

/-- C3: for a subtree reference whose `LoadTree` succeeds with listing `ns`,
`newDir` succeeds; its children are exactly `ns` indexed by name with no
special-node flattening applied (the map literally equals `buildItems ns`,
so a "." entry of `ns` stays a visible child); the keys are exactly the
names of `ns`; and a duplicated name resolves to the LAST descriptor of `ns`
carrying it. -/
theorem C3_newDir_spec (repo : Repo) (n : Node) (o : Bool) (b : BlobSizeCache)
    (ref : Nat) (ns : List Node)
    (href : n.subtree = some ref) (hload : repo ref = Except.ok ns) :
    ∃ d, newDir repo n o b = Except.ok d ∧
      d.items = buildItems ns ∧
      (∀ name, (mapLookup d.items name).isSome ↔ name ∈ ns.map Node.name) ∧
      (∀ name, mapLookup d.items name =
        ns.reverse.find? (fun x => x.name = name)) := by
  have h : newDir repo n o b = Except.ok
      { repo := repo, node := n, items := buildItems ns, inode := n.inode,
        ownerIsRoot := o, blobsize := b } := by
    simp [newDir, loadTree, href, hload]
  refine ⟨_, h, rfl, ?_, ?_⟩
  · intro name
    exact mapLookup_buildItems_isSome ns name
  · intro name
    exact mapLookup_buildItems ns name

/-- Witness for C3: `newDir` on a subtree whose listing contains a "."
marker keeps that marker as a literal child (no flattening on this path). -/
theorem C3_witness :
    ∃ d, newDir sampleRepo wrapDirNode false ⟨⟩ = Except.ok d ∧
      d.items = buildItems [sampleDot] ∧
      (∀ name, (mapLookup d.items name).isSome ↔
        name ∈ [sampleDot].map Node.name) ∧
      (∀ name, mapLookup d.items name =
        [sampleDot].reverse.find? (fun x => x.name = name)) :=
  C3_newDir_spec sampleRepo wrapDirNode false ⟨⟩ 1 [sampleDot] rfl rfl

/-- C1: a snapshot whose top-level listing is the single directory
descriptor named "." pointing at subtree `S` yields, through
`newDirFromSnapshot`, exactly the children mapping that `newDir` builds
directly on a node referencing `S` (assuming both `LoadTree` calls
succeed). -/
theorem C1_snapshot_dot_refines_newDir (repo : Repo) (s : SnapshotWithId)
    (o : Bool) (b : BlobSizeCache) (dotNode n : Node) (S : Nat)
    (ns : List Node)
    (htop : repo s.tree = Except.ok [dotNode])
    (hdir : dotNode.type_ = "dir") (hname : dotNode.name = ".")
    (hsub : dotNode.subtree = some S)
    (hn : n.subtree = some S)
    (hS : repo S = Except.ok ns) :
    ∃ d1 d2, newDirFromSnapshot repo s o b = Except.ok d1 ∧
      newDir repo n o b = Except.ok d2 ∧ d1.items = d2.items := by
  have h1 : newDirFromSnapshot repo s o b = Except.ok
      { repo := repo,
        node := { name := "", type_ := "", subtree := none, inode := 0,
                  mode := Nat.lor osModeDir 0o555,
                  uid := osGetuid, gid := osGetgid,
                  accessTime := s.time, modTime := s.time,
                  changeTime := s.time, extendedAttributes := [] },
        items := buildItems ns, inode := inodeFromBackendID s.id,
        ownerIsRoot := o, blobsize := b } := by
    simp [newDirFromSnapshot, loadTree, htop, snapshotItems,
      replaceSpecialNodes, hdir, hname, hsub, hS, buildItems]
  have h2 : newDir repo n o b = Except.ok
      { repo := repo, node := n, items := buildItems ns, inode := n.inode,
        ownerIsRoot := o, blobsize := b } := by
    simp [newDir, loadTree, hn, hS]
  exact ⟨_, _, h1, h2, rfl⟩

/-- Witness for C1: on a concrete store, the snapshot rooted at the listing
`[sampleDot]` and the directory built directly on subtree 2 have the same
children. -/
theorem C1_witness :
    ∃ d1 d2,
      newDirFromSnapshot sampleRepo ⟨9, 1, 3⟩ false ⟨⟩ = Except.ok d1 ∧
      newDir sampleRepo sampleSub false ⟨⟩ = Except.ok d2 ∧
      d1.items = d2.items :=
  C1_snapshot_dot_refines_newDir sampleRepo ⟨9, 1, 3⟩ false ⟨⟩ sampleDot
    sampleSub 2 [sampleFile, sampleSub] rfl rfl rfl rfl rfl rfl

/-- Any failure of `loadTree` is a wrapped backing-store error. -/
theorem loadTree_error_backing (repo : Repo) (ref : Nat) (e : FuseError)
    (h : loadTree repo ref = Except.error e) :
    ∃ e', e = FuseError.backing e' := by
  unfold loadTree at h
  cases hr : repo ref with
  | ok ns => rw [hr] at h; exact absurd h (by simp)
  | error e2 =>
    rw [hr] at h
    simp only [Except.error.injEq] at h
    exact ⟨e2, h.symm⟩

/-- Any failure of `newDir` is a nil-subtree dereference or a wrapped
backing-store error — never `fuse.ENOENT`. -/
theorem newDir_error_cases (repo : Repo) (node : Node) (o : Bool)
    (b : BlobSizeCache) (e : FuseError)
    (h : newDir repo node o b = Except.error e) :
    e = FuseError.nilDeref ∨ ∃ e', e = FuseError.backing e' := by
  unfold newDir at h
  split at h
  · injection h with h1
    exact Or.inl h1.symm
  · rename_i ref hsub
    split at h
    · rename_i e2 hl
      injection h with h1
      exact Or.inr (h1 ▸ loadTree_error_backing repo ref e2 hl)
    · exact absurd h (by simp)

/-- C4: `Lookup` fails with `fuse.ENOENT` exactly when the name is absent
from the children or the child's type is none of "dir"/"file"/"symlink"
(the unrecognized-type default returns `ENOENT` rather than crashing, and a
"dir" child whose subtree load fails surfaces a backing error, not
`ENOENT`); and on a "dir" child, `Lookup` is exactly `newDir` invoked on
that child descriptor. -/
theorem C4_lookup_spec (d : Dir) (name : String) :
    (lookup d name = Except.error FuseError.enoent ↔
      mapLookup d.items name = none ∨
      ∃ n, mapLookup d.items name = some n ∧
        n.type_ ≠ "dir" ∧ n.type_ ≠ "file" ∧ n.type_ ≠ "symlink") ∧
    (∀ n, mapLookup d.items name = some n → n.type_ = "dir" →
      lookup d name =
        (newDir d.repo n d.ownerIsRoot d.blobsize).map FsNode.dirNode) := by
  cases hm : mapLookup d.items name with
  | none =>
    constructor
    · simp [lookup, hm]
    · intro n hn
      exact absurd hn (by simp)
  | some n =>
    constructor
    · constructor
      · intro hl
        by_cases hdir : n.type_ = "dir"
        · exfalso
          simp only [lookup, hm, hdir, if_pos] at hl
          cases hnd : newDir d.repo n d.ownerIsRoot d.blobsize with
          | ok x => rw [hnd] at hl; exact absurd hl (by simp [Except.map])
          | error e =>
            rw [hnd] at hl
            simp only [Except.map, Except.error.injEq] at hl
            rcases newDir_error_cases d.repo n d.ownerIsRoot d.blobsize e hnd
              with h | ⟨e', h⟩ <;> simp [h] at hl
        · by_cases hfile : n.type_ = "file"
          · exfalso
            simp [lookup, hm, hdir, hfile, newFile] at hl
          · by_cases hsym : n.type_ = "symlink"
            · exfalso
              simp [lookup, hm, hdir, hfile, hsym, newLink] at hl
            · exact Or.inr ⟨n, rfl, hdir, hfile, hsym⟩
      · rintro (hnone | ⟨n', hn', h1, h2, h3⟩)
        · exact absurd hnone (by simp)
        · obtain rfl : n = n' := by simpa using hn'
          simp [lookup, hm, h1, h2, h3]
    · intro n' hn' hdir
      obtain rfl : n = n' := by simpa using hn'
      simp [lookup, hm, hdir]

/-- Witness for C4: a missing name yields `ENOENT`; a "dir" child routes
through `newDir`. -/
theorem C4_witness :
    lookup sampleParent "missing" = Except.error FuseError.enoent ∧
    lookup sampleParent "sub" =
      (newDir sampleParent.repo sampleSub sampleParent.ownerIsRoot
        sampleParent.blobsize).map FsNode.dirNode := by
  constructor
  · exact (C4_lookup_spec sampleParent "missing").1.mpr (Or.inl (by decide))
  · exact (C4_lookup_spec sampleParent "sub").2 sampleSub (by decide) rfl

/-- C5 counterexample: the claim says non-permission bits of the
descriptor's mode never appear in the reported mode; for a descriptor
carrying `os.ModeSetuid` (bit 23) the reported mode differs from the
directory bit OR'd with just the permission bits. -/
theorem C5_counterexample :
    (dirAttr modeDir attrZero).mode ≠
      Nat.lor osModeDir (Nat.land modeDir.node.mode 0o777) := by
  decide

/-- C5 amended: `GetAttributes` reports mode equal to the directory bit
OR'd with the descriptor's ENTIRE mode bits (permission and non-permission
bits alike are passed through); in particular the directory bit (bit 31) is
always set. -/
theorem C5_dirAttr_mode (d : Dir) (a : FuseAttr) :
    (dirAttr d a).mode = Nat.lor osModeDir d.node.mode ∧
    Nat.testBit (dirAttr d a).mode 31 = true := by
  have hmode : (dirAttr d a).mode = Nat.lor osModeDir d.node.mode := by
    by_cases ho : d.ownerIsRoot <;> simp [dirAttr, ho]
  refine ⟨hmode, ?_⟩
  rw [hmode]
  show Nat.testBit (osModeDir ||| d.node.mode) 31 = true
  simp [Nat.testBit_or, show Nat.testBit osModeDir 31 = true from by decide]

/-- C6 counterexample: the claim says every listing entry's type is one of
Dir/File/Symlink; a directory holding a child of type "fifo" produces an
entry of the Go zero value `DT_Unknown` (the switch in `ReadDirAll` has no
default case). -/
theorem C6_counterexample :
    ¬ ∀ e ∈ readDirAll fifoDir,
      e.typ = DirentType.dtDir ∨ e.typ = DirentType.dtFile ∨
        e.typ = DirentType.dtLink := by
  decide

/-- C6 amended: `ReadDirAll` returns exactly one entry per element of
`children`, each carrying the child's inode, name, and switch-translated
type; the type is Dir/File/Symlink exactly when the child's kind is
"dir"/"file"/"symlink", and the zero value `DT_Unknown` otherwise. -/
theorem C6_readDirAll_spec (d : Dir) :
    (readDirAll d).length = d.items.length ∧
    ∀ e ∈ readDirAll d, ∃ p ∈ d.items,
      e.inode = p.2.inode ∧ e.name = p.2.name ∧
      e.typ = direntTypeOf p.2.type_ ∧
      ((e.typ = DirentType.dtDir ∨ e.typ = DirentType.dtFile ∨
          e.typ = DirentType.dtLink) ↔
        (p.2.type_ = "dir" ∨ p.2.type_ = "file" ∨ p.2.type_ = "symlink")) := by
  constructor
  · simp [readDirAll]
  · intro e he
    simp only [readDirAll, List.mem_map] at he
    obtain ⟨p, hp, rfl⟩ := he
    refine ⟨p, hp, rfl, rfl, rfl, ?_⟩
    unfold direntTypeOf
    split_ifs <;> simp [*]

/-- Witness for C6 (amended): on the concrete fifo directory, the listing
has one entry and that entry's type is `DT_Unknown`, matched to its child. -/
theorem C6_witness :
    (readDirAll fifoDir).length = fifoDir.items.length ∧
    ∃ p ∈ fifoDir.items,
      (Dirent.mk 3 DirentType.dtUnknown "p").inode = p.2.inode ∧
      (Dirent.mk 3 DirentType.dtUnknown "p").name = p.2.name ∧
      (Dirent.mk 3 DirentType.dtUnknown "p").typ = direntTypeOf p.2.type_ ∧
      (((Dirent.mk 3 DirentType.dtUnknown "p").typ = DirentType.dtDir ∨
          (Dirent.mk 3 DirentType.dtUnknown "p").typ = DirentType.dtFile ∨
          (Dirent.mk 3 DirentType.dtUnknown "p").typ = DirentType.dtLink) ↔
        (p.2.type_ = "dir" ∨ p.2.type_ = "file" ∨ p.2.type_ = "symlink")) :=
  ⟨(C6_readDirAll_spec fifoDir).1,
    (C6_readDirAll_spec fifoDir).2 (Dirent.mk 3 DirentType.dtUnknown "p")
      (by decide)⟩

/-- The counting loop of `calcNumberOfLinks`, run from any starting count:
as long as the true total stays below `2 ^ 32`, the wrapping `uint32`
increments never wrap and the loop computes start plus the number of "dir"
children. -/
theorem calcLinks_loop (l : List (String × Node)) (c : Nat)
    (h : c + (l.filter (fun p => p.2.type_ = "dir")).length < 2 ^ 32) :
    l.foldl
      (fun count p => if p.2.type_ = "dir" then (count + 1) % 2 ^ 32 else count)
      c = c + (l.filter (fun p => p.2.type_ = "dir")).length := by
  induction l generalizing c with
  | nil => simp
  | cons p rest ih =>
    by_cases hdir : p.2.type_ = "dir"
    · simp only [List.filter_cons] at h ⊢
      rw [if_pos (by simpa using hdir)] at h
      simp only [List.length_cons] at h
      rw [if_pos (by simpa using hdir)]
      simp only [List.foldl_cons, if_pos hdir, List.length_cons]
      rw [Nat.mod_eq_of_lt (by omega), ih (c + 1) (by omega)]
      omega
    · simp only [List.filter_cons] at h ⊢
      rw [if_neg (by simpa using hdir)] at h
      rw [if_neg (by simpa using hdir)]
      simp only [List.foldl_cons, if_neg hdir]
      exact ih c h

/-- C7: `GetAttributes` reports a link count of 2 plus the number of "dir"
children (provided that total fits a `uint32`, which every real directory
satisfies; the counter in the source is a wrapping `uint32`). -/
theorem C7_dirAttr_nlink (d : Dir) (a : FuseAttr)
    (h : 2 + (d.items.filter (fun p => p.2.type_ = "dir")).length < 2 ^ 32) :
    (dirAttr d a).nlink =
      2 + (d.items.filter (fun p => p.2.type_ = "dir")).length := by
  have hnl : (dirAttr d a).nlink = calcNumberOfLinks d := by
    by_cases ho : d.ownerIsRoot <;> simp [dirAttr, ho]
  rw [hnl]
  unfold calcNumberOfLinks
  exact calcLinks_loop d.items 2 h

/-- Witness for C7: the concrete parent has one "dir" child, so its
reported link count is 3. -/
theorem C7_witness :
    (dirAttr sampleParent attrZero).nlink =
      2 + (sampleParent.items.filter (fun p => p.2.type_ = "dir")).length :=
  C7_dirAttr_nlink sampleParent attrZero (by decide)

/-- C8: `Getxattr` fails with `fuse.ErrNoXattr` exactly when no stored
attribute name matches the requested name under exact (byte-for-byte,
case-sensitive) equality; when the linear scan finds a first matching
entry, its exact stored bytes are returned. -/
theorem C8_getxattr_spec (d : Dir) (name : String) :
    (getxattr d name = Except.error FuseError.noXattr ↔
      ∀ p ∈ d.node.extendedAttributes, p.1 ≠ name) ∧
    (∀ p, d.node.extendedAttributes.find? (fun q => q.1 = name) = some p →
      p.1 = name ∧ getxattr d name = Except.ok p.2) := by
  cases hf : d.node.extendedAttributes.find? (fun q => decide (q.1 = name)) with
  | none =>
    have hall : ∀ p ∈ d.node.extendedAttributes, p.1 ≠ name := by
      intro p hp
      have := List.find?_eq_none.mp hf p hp
      simpa using this
    constructor
    · constructor
      · intro _
        exact hall
      · intro _
        simp [getxattr, getExtendedAttribute, hf]
    · intro p hp
      exact absurd hp (by simp)
  | some p0 =>
    have hp0 : p0.1 = name := by
      have := List.find?_some hf
      simpa using this
    constructor
    · constructor
      · intro h
        exfalso
        simp [getxattr, getExtendedAttribute, hf] at h
      · intro hall
        exact absurd hp0 (hall p0 (List.mem_of_find?_eq_some hf))
    · intro p hp
      obtain rfl : p0 = p := by simpa using hp
      exact ⟨hp0, by simp [getxattr, getExtendedAttribute, hf]⟩

/-- Witness for C8: the stored attribute "user.Key" is returned with its
exact bytes, and the case-variant name "user.key" fails with
`ErrNoXattr`. -/
theorem C8_witness :
    getxattr xattrDir "user.Key" = Except.ok [1, 2, 3] ∧
    getxattr xattrDir "user.key" = Except.error FuseError.noXattr := by
  constructor
  · exact ((C8_getxattr_spec xattrDir "user.Key").2 ("user.Key", [1, 2, 3])
      (by decide)).2
  · exact (C8_getxattr_spec xattrDir "user.key").1.mpr (by decide)

/-- A successful `newDir` means the node had a subtree reference, its load
succeeded, and the result is exactly the indexed listing. -/
theorem newDir_ok_elim (repo : Repo) (node : Node) (o : Bool)
    (b : BlobSizeCache) (d : Dir)
    (h : newDir repo node o b = Except.ok d) :
    ∃ ref ns, node.subtree = some ref ∧ loadTree repo ref = Except.ok ns ∧
      d = { repo := repo, node := node, items := buildItems ns,
            inode := node.inode, ownerIsRoot := o, blobsize := b } := by
  unfold newDir at h
  split at h
  · exact absurd h (by simp)
  · rename_i ref hsub
    split at h
    · exact absurd h (by simp)
    · rename_i ns hl
      injection h with h1
      exact ⟨ref, ns, hsub, hl, h1.symm⟩

/-- C9: two independent `Lookup` calls for the same "dir" child of the same
parent, each re-loading from a backing store, yield directory objects with
identical observable attributes — same inode and byte-identical
`GetAttributes` output — provided the two loads return the same listing
(the stores agree on the child's subtree reference).  The two results are
separately constructed values; only their observable equality is stated. -/
theorem C9_lookup_attr_stable (d : Dir) (repo1 repo2 : Repo) (name : String)
    (n : Node) (a : FuseAttr) (d1 d2 : Dir)
    (hn : mapLookup d.items name = some n) (ht : n.type_ = "dir")
    (hagree : ∀ ref, n.subtree = some ref → repo1 ref = repo2 ref)
    (h1 : lookup { d with repo := repo1 } name = Except.ok (FsNode.dirNode d1))
    (h2 : lookup { d with repo := repo2 } name = Except.ok (FsNode.dirNode d2)) :
    d1.inode = d2.inode ∧ dirAttr d1 a = dirAttr d2 a := by
  simp only [lookup, hn, ht, if_pos] at h1 h2
  cases hnd1 : newDir repo1 n d.ownerIsRoot d.blobsize with
  | error e => rw [hnd1] at h1; exact absurd h1 (by simp [Except.map])
  | ok x1 =>
    rw [hnd1] at h1
    simp only [Except.map, Except.ok.injEq, FsNode.dirNode.injEq] at h1
    cases hnd2 : newDir repo2 n d.ownerIsRoot d.blobsize with
    | error e => rw [hnd2] at h2; exact absurd h2 (by simp [Except.map])
    | ok x2 =>
      rw [hnd2] at h2
      simp only [Except.map, Except.ok.injEq, FsNode.dirNode.injEq] at h2
      subst h1 h2
      obtain ⟨ref1, ns1, hsub1, hl1, rfl⟩ :=
        newDir_ok_elim repo1 n d.ownerIsRoot d.blobsize x1 hnd1
      obtain ⟨ref2, ns2, hsub2, hl2, rfl⟩ :=
        newDir_ok_elim repo2 n d.ownerIsRoot d.blobsize x2 hnd2
      rw [hsub1] at hsub2
      obtain rfl : ref1 = ref2 := by simpa using hsub2
      have hrr : repo1 ref1 = repo2 ref1 := hagree ref1 hsub1
      have hlt : loadTree repo2 ref1 = loadTree repo1 ref1 := by
        unfold loadTree
        rw [hrr]
      rw [hlt, hl1] at hl2
      obtain rfl : ns1 = ns2 := by simpa using hl2
      exact ⟨rfl, rfl⟩

/-- Witness for C9: two lookups of "sub" over two stores that agree on
subtree 2 produce directories with the same inode and identical attribute
output. -/
theorem C9_witness :
    lookupDir1.inode = lookupDir2.inode ∧
    dirAttr lookupDir1 attrZero = dirAttr lookupDir2 attrZero := by
  refine C9_lookup_attr_stable sampleParent sampleRepo sampleRepo2 "sub"
    sampleSub attrZero lookupDir1 lookupDir2 (by decide) rfl ?_ rfl rfl
  intro ref h
  have h2 : (2 : Nat) = ref := by
    simpa [sampleSub] using h
  subst h2
  rfl

end ResticFuse
